import Mathlib

/-!
Verification of `src/yaml_utils.py`: loading of camera-calibration and
sensor-transform parameters from parsed YAML documents.

The embedding works on the parsed document (a string-keyed mapping of YAML
values), mirroring each Python function after `yaml.safe_load` has produced
the in-memory object.  Numbers are modelled as rationals; numpy/scipy
arithmetic on them is exact rational arithmetic (the composite
`Rotation.from_quat(q).as_matrix()` map normalises the quaternion and then
applies a formula homogeneous of degree 2, so it is a rational function of
the components).  Python exceptions become an explicit error type.
-/

namespace YamlUtils

/-- A parsed YAML value: the result of `yaml.safe_load`.  Mappings are
association lists with distinct keys, kept in insertion order, exactly as
Python dictionaries behave. -/
inductive YamlValue where
  | null : YamlValue
  | num (q : ℚ) : YamlValue
  | str (s : String) : YamlValue
  | arr (vs : List YamlValue) : YamlValue
  | dict (entries : List (String × YamlValue)) : YamlValue

/-- Python exceptions that the module can raise. -/
inductive PyError where
  | keyError (k : String) : PyError
  | valueError : PyError
  | typeError : PyError
  | indexError : PyError
  | attributeError : PyError
deriving DecidableEq

/-- The parsed top-level document: a Python dict from strings to values. -/
def Doc := List (String × YamlValue)

/-- Dictionary lookup: `d[k]` as an option (used to model both `k in d`
and `d.get(k)`). -/
def dictFind? (m : List (String × YamlValue)) (k : String) : Option YamlValue :=
  (m.find? (fun p => p.1 == k)).map Prod.snd

/-- Python `d[k] = v` on a dict: overwrites in place when the key exists
(keeping its position), appends otherwise. -/
def dictInsert : List (String × YamlValue) → String → YamlValue →
    List (String × YamlValue)
  | [], k, v => [(k, v)]
  | p :: rest, k, v =>
      if p.1 == k then (k, v) :: rest else p :: dictInsert rest k v

/-- Python subscript `v[k]` with a string key: succeeds only on a dict that
has the key (`KeyError` when the key is absent, `TypeError` on lists and
other non-mapping values). -/
def getItem (v : YamlValue) (k : String) : Except PyError YamlValue :=
  match v with
  | .dict es =>
      match dictFind? es k with
      | some x => .ok x
      | none => .error (.keyError k)
  | _ => .error .typeError

/-- Python `k in v`: key membership for dicts, element membership for lists,
substring test for strings, `TypeError` otherwise. -/
def pyContains (v : YamlValue) (k : String) : Except PyError Bool :=
  match v with
  | .dict es => .ok (es.any (fun p => p.1 == k))
  | .arr vs =>
      .ok (vs.any (fun x =>
        match x with
        | .str s => s == k
        | _ => false))
  | .str s => .ok (k == "" || (s.splitOn k).length != 1)
  | _ => .error .typeError

/-- Python `d.get(k)` on a value expected to be a dict: `AttributeError`
when the receiver is not a dict; missing keys give `None` (our `.null`),
matching how `yaml` and `dict.get` conflate absence with null. -/
def pyDictGet (v : YamlValue) (k : String) : Except PyError YamlValue :=
  match v with
  | .dict es => .ok ((dictFind? es k).getD .null)
  | _ => .error .attributeError

/-- `np.array(v)` for a flat numeric list, as consumed by the transform
code: a list of numbers becomes the list of its rationals, anything else
fails. -/
def asRatList (v : YamlValue) : Except PyError (List ℚ) :=
  match v with
  | .arr vs =>
      vs.mapM (fun x =>
        match x with
        | .num q => Except.ok q
        | _ => Except.error PyError.typeError)
  | _ => .error .typeError

/-- Decidable equality for `Except` results, so that concrete runs of the
loaders can be checked by evaluation. -/
instance exceptDecEq {e a : Type} [DecidableEq e] [DecidableEq a] :
    DecidableEq (Except e a) := fun x y =>
  match x, y with
  | .ok u, .ok v =>
      if h : u = v then isTrue (by rw [h]) else isFalse (by simp [h])
  | .error u, .error v =>
      if h : u = v then isTrue (by rw [h]) else isFalse (by simp [h])
  | .ok _, .error _ => isFalse (by simp)
  | .error _, .ok _ => isFalse (by simp)

/-- The result of `load_parameters_from_yaml`: either a single bare value
(when the built dictionary has exactly one entry) or the whole dictionary. -/
inductive ParamsResult where
  | single (v : YamlValue) : ParamsResult
  | mapping (m : List (String × YamlValue)) : ParamsResult

/-- Whether a `ParamsResult` is the dictionary-shaped return. -/
def ParamsResult.isMapping : ParamsResult → Bool
  | .single _ => false
  | .mapping _ => true

/-- `load_camera_intrinsics` (yaml_utils.py lines 32-67), after parsing:
looks up `configs["camera"][f]` for each field and assembles the camera
matrix, the distortion coefficient vector and the image size pair.  Each
field access raises `KeyError` when the key is absent, as in the source. -/
def load_camera_intrinsics (configs : Doc) :
    Except PyError (List (List YamlValue) × List YamlValue × (YamlValue × YamlValue)) := do
  let fx ← getItem (.dict configs) "camera" >>= (getItem · "fx")
  let fy ← getItem (.dict configs) "camera" >>= (getItem · "fy")
  let cx ← getItem (.dict configs) "camera" >>= (getItem · "cx")
  let cy ← getItem (.dict configs) "camera" >>= (getItem · "cy")
  let k1 ← getItem (.dict configs) "camera" >>= (getItem · "k1")
  let k2 ← getItem (.dict configs) "camera" >>= (getItem · "k2")
  let k3 ← getItem (.dict configs) "camera" >>= (getItem · "k3")
  let p1 ← getItem (.dict configs) "camera" >>= (getItem · "p1")
  let p2 ← getItem (.dict configs) "camera" >>= (getItem · "p2")
  let image_width ← getItem (.dict configs) "camera" >>= (getItem · "image_width")
  let image_height ← getItem (.dict configs) "camera" >>= (getItem · "image_height")
  let camera_matrix := [[fx, .num 0, cx], [.num 0, fy, cy], [.num 0, .num 0, .num 1]]
  let distortion_coefficients := [k1, k2, p1, p2, k3]
  let image_size := (image_height, image_width)
  return (camera_matrix, distortion_coefficients, image_size)

/-- `load_ros_topic_names` (yaml_utils.py lines 70-91), after parsing:
`configs.get('topics', {})` followed by `.get` on the three topic keys;
always returns the three-key dictionary, with `None` for missing keys. -/
def load_ros_topic_names (configs : Doc) :
    Except PyError (List (String × YamlValue)) := do
  let topics := (dictFind? configs "topics").getD (.dict [])
  let image_topic ← pyDictGet topics "image"
  let tf_topic ← pyDictGet topics "tf"
  let event_topic ← pyDictGet topics "event"
  return [("image", image_topic), ("tf", tf_topic), ("event", event_topic)]

/-- One iteration of the loop in `load_parameters_from_yaml`:
`parameters[key] = configs[key] if key in configs else None`. -/
def paramStep (configs : Doc) (m : List (String × YamlValue)) (key : String) :
    List (String × YamlValue) :=
  match dictFind? configs key with
  | some v => dictInsert m key v
  | none => dictInsert m key .null

/-- The `parameters` dictionary built by the loop in
`load_parameters_from_yaml`. -/
def paramsDict (configs : Doc) (keys : List String) : List (String × YamlValue) :=
  keys.foldl (paramStep configs) []

/-- The value `load_parameters_from_yaml` records for a requested key:
the looked-up value, or `None` when the key is absent. -/
def paramValue (configs : Doc) (k : String) : YamlValue :=
  (dictFind? configs k).getD .null

/-- `load_parameters_from_yaml` (yaml_utils.py lines 94-118), after parsing:
builds the `parameters` dictionary over the requested keys (absent keys get
`None`), then returns the lone value when the dictionary has exactly one
entry and the whole dictionary otherwise. -/
def load_parameters_from_yaml (configs : Doc) (keys : List String) : ParamsResult :=
  match paramsDict configs keys with
  | [p] => .single p.2
  | ps => .mapping ps

/-- The fields `load_camera_intrinsics` reads from the `camera` block, in
the order the source reads them. -/
def requiredCameraFields : List String :=
  ["fx", "fy", "cx", "cy", "k1", "k2", "k3", "p1", "p2", "image_width", "image_height"]

/-- The quaternion swap on line 150 of yaml_utils.py:
`quaternion[0], quaternion[-1] = quaternion[-1], quaternion[0]` on the
numpy array; `IndexError` on an empty array, identity on a singleton,
exchange of first and last entries otherwise. -/
def swapFirstLast (l : List ℚ) : Except PyError (List ℚ) :=
  match l with
  | [] => .error .indexError
  | [a] => .ok [a]
  | a :: b :: rest => .ok (((b :: rest).getLastD b) :: ((b :: rest).dropLast ++ [a]))

/-- `scipy.spatial.transform.Rotation.from_quat(q).as_matrix()` for a single
scalar-last quaternion `[x, y, z, w]`: `from_quat` rejects inputs that are
not 4-vectors (`ValueError`), rejects the zero quaternion (`ValueError`),
normalises, and `as_matrix` applies the standard unit-quaternion formula.
Normalisation divides by the norm and every matrix entry is homogeneous of
degree 2 in the components, so the composite is the rational map below with
`n` the squared norm. -/
def R_from_quat_as_matrix (l : List ℚ) : Except PyError (List (List ℚ)) :=
  match l with
  | [x, y, z, w] =>
      let n := x ^ 2 + y ^ 2 + z ^ 2 + w ^ 2
      if n = 0 then .error .valueError
      else .ok
        [[(x ^ 2 - y ^ 2 - z ^ 2 + w ^ 2) / n, 2 * (x * y - z * w) / n, 2 * (x * z + y * w) / n],
         [2 * (x * y + z * w) / n, (-x ^ 2 + y ^ 2 - z ^ 2 + w ^ 2) / n, 2 * (y * z - x * w) / n],
         [2 * (x * z - y * w) / n, 2 * (y * z + x * w) / n, (-x ^ 2 - y ^ 2 + z ^ 2 + w ^ 2) / n]]
  | _ => .error .valueError

/-- The numpy assignment `transformation_matrix[:3, 3] = position`: a
3-vector is taken as is, a 1-vector broadcasts to all three rows, any other
length fails with `ValueError`. -/
def broadcastPosition (l : List ℚ) : Except PyError (List ℚ) :=
  match l with
  | [p] => .ok [p, p, p]
  | [p0, p1, p2] => .ok [p0, p1, p2]
  | _ => .error .valueError

/-- `load_transformation` (yaml_utils.py lines 120-160), after parsing:
key lookup (`KeyError` when absent), the Position/Rotation presence check
(`ValueError` when either is missing, testing `Position` first as the
short-circuiting `or` does), extraction of the two arrays, the first/last
swap of the quaternion, the scipy conversion to a rotation matrix, and the
assembly of the 4x4 homogeneous matrix from `np.eye(4)`. -/
def load_transformation (configs : Doc) (key : String) :
    Except PyError (List (List ℚ)) := do
  match dictFind? configs key with
  | none => throw (.keyError key)
  | some entry => do
    let hasPosition ← pyContains entry "Position"
    if hasPosition = false then
      throw .valueError
    let hasRotation ← pyContains entry "Rotation"
    if hasRotation = false then
      throw .valueError
    let position ← getItem entry "Position" >>= asRatList
    let quaternion ← getItem entry "Rotation" >>= asRatList
    let quaternion ← swapFirstLast quaternion
    let rotation ← R_from_quat_as_matrix quaternion
    let position ← broadcastPosition position
    match rotation, position with
    | [[r00, r01, r02], [r10, r11, r12], [r20, r21, r22]], [p0, p1, p2] =>
        return [[r00, r01, r02, p0],
                [r10, r11, r12, p1],
                [r20, r21, r22, p2],
                [0, 0, 0, 1]]
    | _, _ => throw .valueError

/-- Modelled from the spec: the scalar-last reordering the spec and the
source comment on line 149 intend, sending a scalar-first quaternion
`[w, x, y, z]` to `[x, y, z, w]`. -/
def specScalarLast (l : List ℚ) : List ℚ :=
  match l with
  | [w, x, y, z] => [x, y, z, w]
  | other => other

/-! ### Dictionary lemmas -/

theorem dictFind?_nil (k : String) : dictFind? [] k = none := rfl

theorem dictFind?_cons (a : String) (b : YamlValue)
    (rest : List (String × YamlValue)) (k : String) :
    dictFind? ((a, b) :: rest) k = if a = k then some b else dictFind? rest k := by
  unfold dictFind?
  by_cases h : a = k
  · rw [List.find?_cons_of_pos _ (by simp [h])]
    simp [h]
  · rw [List.find?_cons_of_neg _ (by simp [h])]
    simp [h]

theorem dictFind?_dictInsert (m : List (String × YamlValue)) (k : String)
    (v : YamlValue) (k' : String) :
    dictFind? (dictInsert m k v) k' = if k' = k then some v else dictFind? m k' := by
  induction m with
  | nil =>
      show dictFind? [(k, v)] k' = _
      rw [dictFind?_cons]
      by_cases h : k' = k
      · simp [h]
      · simp [h, Ne.symm h, dictFind?_nil]
  | cons p rest ih =>
      obtain ⟨a, b⟩ := p
      by_cases hp : a = k
      · have hins : dictInsert ((a, b) :: rest) k v = (k, v) :: rest := by
          simp [dictInsert, hp]
        rw [hins, dictFind?_cons, dictFind?_cons]
        subst hp
        by_cases h : k' = a
        · simp [h]
        · simp [h, Ne.symm h]
      · have hins : dictInsert ((a, b) :: rest) k v = (a, b) :: dictInsert rest k v := by
          simp [dictInsert, hp]
        rw [hins, dictFind?_cons, ih, dictFind?_cons]
        by_cases h2 : k' = k
        · subst h2
          simp [hp]
        · by_cases h1 : a = k' <;> simp [h1, h2]

theorem dictFind?_isSome_iff (m : List (String × YamlValue)) (k : String) :
    (dictFind? m k).isSome = true ↔ k ∈ m.map Prod.fst := by
  induction m with
  | nil => simp [dictFind?_nil]
  | cons p rest ih =>
      obtain ⟨a, b⟩ := p
      rw [dictFind?_cons]
      by_cases h : a = k
      · simp [h]
      · have h' : ¬ k = a := fun hh => h hh.symm
        simp [h, h', ih]

theorem mem_fst_paramsFold (configs : Doc) (keys : List String) :
    ∀ (m : List (String × YamlValue)) (k : String),
      k ∈ (keys.foldl (paramStep configs) m).map Prod.fst ↔
        k ∈ m.map Prod.fst ∨ k ∈ keys := by
  induction keys with
  | nil => intro m k; simp
  | cons key rest ih =>
      intro m k
      have hstep : paramStep configs m key = dictInsert m key (paramValue configs key) := by
        cases h : dictFind? configs key <;> simp [paramStep, paramValue, h]
      have hmem : k ∈ (dictInsert m key (paramValue configs key)).map Prod.fst ↔
          k = key ∨ k ∈ m.map Prod.fst := by
        rw [← dictFind?_isSome_iff, dictFind?_dictInsert, ← dictFind?_isSome_iff]
        by_cases h : k = key <;> simp [h]
      simp only [List.foldl_cons, hstep, ih, hmem, List.mem_cons]
      tauto

theorem nodup_fst_dictInsert (m : List (String × YamlValue)) (k : String)
    (v : YamlValue) (h : (m.map Prod.fst).Nodup) :
    ((dictInsert m k v).map Prod.fst).Nodup := by
  induction m with
  | nil => simp [dictInsert]
  | cons p rest ih =>
      obtain ⟨a, b⟩ := p
      have hcons : (a :: rest.map Prod.fst).Nodup := by simpa using h
      obtain ⟨hna, hnd⟩ := List.nodup_cons.mp hcons
      by_cases hp : a = k
      · have hins : dictInsert ((a, b) :: rest) k v = (k, v) :: rest := by
          simp [dictInsert, hp]
        rw [hins]
        subst hp
        simpa using hcons
      · have hins : dictInsert ((a, b) :: rest) k v = (a, b) :: dictInsert rest k v := by
          simp [dictInsert, hp]
        rw [hins, List.map_cons, List.nodup_cons]
        refine ⟨?_, ih hnd⟩
        rw [← dictFind?_isSome_iff, dictFind?_dictInsert]
        simp only [hp, if_false]
        rw [dictFind?_isSome_iff]
        exact hna

theorem nodup_fst_paramsFold (configs : Doc) (keys : List String) :
    ∀ (m : List (String × YamlValue)), (m.map Prod.fst).Nodup →
      ((keys.foldl (paramStep configs) m).map Prod.fst).Nodup := by
  induction keys with
  | nil => intro m hm; simpa using hm
  | cons key rest ih =>
      intro m hm
      have hstep : paramStep configs m key = dictInsert m key (paramValue configs key) := by
        cases h : dictFind? configs key <;> simp [paramStep, paramValue, h]
      simp only [List.foldl_cons, hstep]
      exact ih _ (nodup_fst_dictInsert m key _ hm)

theorem dictFind?_paramsFold (configs : Doc) (keys : List String) :
    ∀ (m : List (String × YamlValue)) (k : String),
      dictFind? (keys.foldl (paramStep configs) m) k =
        if k ∈ keys then some (paramValue configs k) else dictFind? m k := by
  induction keys with
  | nil => intro m k; simp
  | cons key rest ih =>
      intro m k
      have hstep : paramStep configs m key = dictInsert m key (paramValue configs key) := by
        cases h : dictFind? configs key <;> simp [paramStep, paramValue, h]
      simp only [List.foldl_cons, hstep, ih, dictFind?_dictInsert]
      by_cases h1 : k ∈ rest
      · simp [h1, List.mem_cons]
      · by_cases h2 : k = key <;> simp [h1, h2, List.mem_cons]

theorem length_paramsDict (configs : Doc) (keys : List String) :
    (paramsDict configs keys).length = keys.toFinset.card := by
  have hnd : ((paramsDict configs keys).map Prod.fst).Nodup :=
    nodup_fst_paramsFold configs keys [] (by simp)
  have hset : ((paramsDict configs keys).map Prod.fst).toFinset = keys.toFinset := by
    ext a
    simp only [List.mem_toFinset]
    simpa using mem_fst_paramsFold configs keys [] a
  have := List.toFinset_card_of_nodup hnd
  rw [hset] at this
  simpa using this.symm

/-! ### Shape lemmas for the transform pipeline -/

theorem R_from_quat_shape (l : List ℚ) (r : List (List ℚ))
    (h : R_from_quat_as_matrix l = .ok r) :
    ∃ r00 r01 r02 r10 r11 r12 r20 r21 r22 : ℚ,
      r = [[r00, r01, r02], [r10, r11, r12], [r20, r21, r22]] := by
  match l with
  | [] | [_] | [_, _] | [_, _, _] => simp [R_from_quat_as_matrix] at h
  | [x, y, z, w] =>
      by_cases hn : x ^ 2 + y ^ 2 + z ^ 2 + w ^ 2 = 0
      · simp [R_from_quat_as_matrix, hn] at h
      · simp only [R_from_quat_as_matrix, hn, if_false] at h
        injection h with h2
        exact ⟨_, _, _, _, _, _, _, _, _, h2.symm⟩
  | _ :: _ :: _ :: _ :: _ :: _ => simp [R_from_quat_as_matrix] at h

theorem broadcastPosition_shape (l : List ℚ) (p : List ℚ)
    (h : broadcastPosition l = .ok p) :
    ∃ p0 p1 p2 : ℚ, p = [p0, p1, p2] := by
  match l with
  | [] | [_, _] => simp [broadcastPosition] at h
  | [a] => exact ⟨a, a, a, by simpa [broadcastPosition] using h.symm⟩
  | [a, b, c] => exact ⟨a, b, c, by simpa [broadcastPosition] using h.symm⟩
  | _ :: _ :: _ :: _ :: _ => simp [broadcastPosition] at h

/-! ### The successful run of `load_camera_intrinsics` -/

theorem load_camera_intrinsics_ok (configs : Doc) (cam : List (String × YamlValue))
    (fx fy cx cy k1 k2 k3 p1 p2 iw ih : YamlValue)
    (hc : dictFind? configs "camera" = some (.dict cam))
    (hfx : dictFind? cam "fx" = some fx) (hfy : dictFind? cam "fy" = some fy)
    (hcx : dictFind? cam "cx" = some cx) (hcy : dictFind? cam "cy" = some cy)
    (hk1 : dictFind? cam "k1" = some k1) (hk2 : dictFind? cam "k2" = some k2)
    (hk3 : dictFind? cam "k3" = some k3) (hp1 : dictFind? cam "p1" = some p1)
    (hp2 : dictFind? cam "p2" = some p2) (hiw : dictFind? cam "image_width" = some iw)
    (hih : dictFind? cam "image_height" = some ih) :
    load_camera_intrinsics configs =
      .ok ([[fx, .num 0, cx], [.num 0, fy, cy], [.num 0, .num 0, .num 1]],
           [k1, k2, p1, p2, k3], (ih, iw)) := by
  simp [load_camera_intrinsics, getItem, hc, hfx, hfy, hcx, hcy, hk1, hk2, hk3,
    hp1, hp2, hiw, hih, Bind.bind, Except.bind, Functor.map, Except.map, pure,
    Except.pure]

theorem any_key_eq_isSome (m : List (String × YamlValue)) (k : String) :
    (m.any (fun p => p.1 == k)) = (dictFind? m k).isSome := by
  induction m with
  | nil => simp [dictFind?_nil]
  | cons p rest ih =>
      obtain ⟨a, b⟩ := p
      rw [List.any_cons, dictFind?_cons]
      by_cases h : a = k <;> simp [h, ih]

/-- Evaluating a successful run of `load_transformation` from the values of
its intermediate steps. -/
theorem load_transformation_eq_ok (configs : Doc) (key : String)
    (es : List (String × YamlValue)) (pv rv : YamlValue)
    (posL quatL quatSw : List ℚ)
    (r00 r01 r02 r10 r11 r12 r20 r21 r22 p0 p1 p2 : ℚ)
    (h : dictFind? configs key = some (.dict es))
    (hP : dictFind? es "Position" = some pv)
    (hR : dictFind? es "Rotation" = some rv)
    (hpl : asRatList pv = .ok posL)
    (hql : asRatList rv = .ok quatL)
    (hsw : swapFirstLast quatL = .ok quatSw)
    (hrot : R_from_quat_as_matrix quatSw =
      .ok [[r00, r01, r02], [r10, r11, r12], [r20, r21, r22]])
    (hbp : broadcastPosition posL = .ok [p0, p1, p2]) :
    load_transformation configs key =
      .ok [[r00, r01, r02, p0], [r10, r11, r12, p1], [r20, r21, r22, p2],
           [0, 0, 0, 1]] := by
  have hPs : (dictFind? es "Position").isSome = true := by rw [hP]; rfl
  have hRs : (dictFind? es "Rotation").isSome = true := by rw [hR]; rfl
  simp [load_transformation, h, pyContains, any_key_eq_isSome, hPs, hRs,
    getItem, hP, hR, hpl, hql, hsw, hrot, hbp,
    Bind.bind, Except.bind, pure, Except.pure]

/-! ### Claims -/

/-- C1: the spec says the swap of the first and last components of a
scalar-first quaternion `[w, x, y, z]` (line 150 of the source) yields the
scalar-last order `[x, y, z, w]`.  It does not: at `[1, 2, 3, 4]` the swap
performed by the code yields `[4, 2, 3, 1]`, while the reorder described by
the spec and by the source's own comment on line 149 yields `[2, 3, 4, 1]`,
and the two differ.  The code contradicts its own comment, so this is a bug
in the code. -/
theorem c1_swap_is_not_scalar_last :
    swapFirstLast [1, 2, 3, 4] = .ok [4, 2, 3, 1] ∧
    specScalarLast [1, 2, 3, 4] = [2, 3, 4, 1] ∧
    ([4, 2, 3, 1] : List ℚ) ≠ [2, 3, 4, 1] :=
  ⟨rfl, rfl, by decide⟩

/-- C4: on the entry `Position = [1, 2, 3]`, `Rotation = [1, 0, 0, 0]`
(identity quaternion, scalar first), `load_transformation` returns the 4x4
homogeneous matrix with identity rotation block and translation column
`[1, 2, 3]`. -/
theorem load_transformation_identity_example :
    load_transformation
        [("T", .dict [("Position", .arr [.num 1, .num 2, .num 3]),
                      ("Rotation", .arr [.num 1, .num 0, .num 0, .num 0])])] "T" =
      .ok [[1, 0, 0, 1], [0, 1, 0, 2], [0, 0, 1, 3], [0, 0, 0, 1]] :=
  load_transformation_eq_ok _ "T" _ _ _ [1, 2, 3] [1, 0, 0, 0] [0, 0, 0, 1]
    1 0 0 0 1 0 0 0 1 1 2 3
    rfl rfl rfl rfl rfl rfl (by norm_num [R_from_quat_as_matrix]) rfl

/-- C9: the spec demands that reordering as `load_transformation` does,
converting to a matrix, and converting back yield the original rotation.
At the scalar-first quaternion `[0, 0, 0, 1]` (a half turn about the z
axis) the code's swap produces the rotation matrix `diag(1, -1, -1)` (a
half turn about the x axis), while the rotation of the original quaternion
(obtained from the reorder the spec describes) is `diag(-1, -1, 1)`.  The
two matrices differ in entries by 2, far beyond any floating-point
tolerance, so no conversion back from the produced matrix can recover the
original rotation: the round trip fails because of the swap bug on line
150. -/
theorem c9_roundtrip_fails :
    (swapFirstLast [0, 0, 0, 1] >>= R_from_quat_as_matrix) =
      .ok [[1, 0, 0], [0, -1, 0], [0, 0, -1]] ∧
    R_from_quat_as_matrix (specScalarLast [0, 0, 0, 1]) =
      .ok [[-1, 0, 0], [0, -1, 0], [0, 0, 1]] ∧
    ([[1, 0, 0], [0, -1, 0], [0, 0, -1]] : List (List ℚ)) ≠
      [[-1, 0, 0], [0, -1, 0], [0, 0, 1]] := by
  have h1 : swapFirstLast [0, 0, 0, 1] = .ok [1, 0, 0, 0] := rfl
  have h2 : specScalarLast [0, 0, 0, 1] = [0, 0, 1, 0] := rfl
  have ha : R_from_quat_as_matrix [1, 0, 0, 0] =
      .ok [[1, 0, 0], [0, -1, 0], [0, 0, -1]] := by
    norm_num [R_from_quat_as_matrix]
  have hb : R_from_quat_as_matrix [0, 0, 1, 0] =
      .ok [[-1, 0, 0], [0, -1, 0], [0, 0, 1]] := by
    norm_num [R_from_quat_as_matrix]
  refine ⟨?_, ?_, ?_⟩
  · rw [h1]
    simpa [Bind.bind, Except.bind] using ha
  · rw [h2]
    exact hb
  · intro hcontra
    norm_num at hcontra

/-- C3: `load_transformation` fails with `KeyError` when the key is absent
from the document, and fails with `ValueError` when the entry at the key
has neither a `Position` nor a `Rotation` field.  In both cases the result
is an `Except.error`, so no matrix is returned. -/
theorem load_transformation_error_cases (configs : Doc) (key : String)
    (entry : List (String × YamlValue)) :
    (dictFind? configs key = none →
      load_transformation configs key = .error (.keyError key)) ∧
    (dictFind? configs key = some (.dict entry) →
      dictFind? entry "Position" = none →
      dictFind? entry "Rotation" = none →
      load_transformation configs key = .error .valueError) := by
  constructor
  · intro h
    simp [load_transformation, h, throw, throwThe, MonadExceptOf.throw]
  · intro h hP _hR
    simp [load_transformation, h, pyContains, any_key_eq_isSome, hP,
      Bind.bind, Except.bind, pure, Except.pure, throw, throwThe, MonadExceptOf.throw]

/-- Witness for C3 at concrete documents: an empty document has no key
`"T"`, and an entry that is an empty mapping lacks both fields. -/
theorem load_transformation_error_cases_witness :
    load_transformation [] "T" = .error (.keyError "T") ∧
    load_transformation [("T", .dict [])] "T" = .error .valueError :=
  ⟨(load_transformation_error_cases [] "T" []).1 rfl,
   (load_transformation_error_cases [("T", .dict [])] "T" []).2 rfl rfl rfl⟩

/-- C10: `load_transformation` already fails with `ValueError` when the
entry lacks just one of the two fields `Position`, `Rotation`: the check on
line 141 is a disjunction. -/
theorem load_transformation_single_missing_field (configs : Doc) (key : String)
    (entry : List (String × YamlValue))
    (h : dictFind? configs key = some (.dict entry))
    (hor : dictFind? entry "Position" = none ∨ dictFind? entry "Rotation" = none) :
    load_transformation configs key = .error .valueError := by
  by_cases hP : dictFind? entry "Position" = none
  · simp [load_transformation, h, pyContains, any_key_eq_isSome, hP,
      Bind.bind, Except.bind, pure, Except.pure, throw, throwThe, MonadExceptOf.throw]
  · have hR : dictFind? entry "Rotation" = none := hor.resolve_left hP
    have hPs : (dictFind? entry "Position").isSome = true :=
      Option.ne_none_iff_isSome.mp hP
    simp [load_transformation, h, pyContains, any_key_eq_isSome, hPs, hR,
      Bind.bind, Except.bind, pure, Except.pure, throw, throwThe, MonadExceptOf.throw]

/-- Witness for C10: an entry carrying only `Position` (so `Rotation` alone
is missing) is already rejected with `ValueError`. -/
theorem load_transformation_single_missing_field_witness :
    load_transformation
        [("T", .dict [("Position", .arr [.num 1, .num 2, .num 3])])] "T" =
      .error .valueError :=
  load_transformation_single_missing_field _ "T" _ rfl (Or.inr rfl)

/-- C6: `load_ros_topic_names` never fails on missing topic fields: it
always returns the dictionary with exactly the keys `image`, `tf`,
`event`; a missing sub-key yields `None`, and a document without a
`topics` key yields all three fields `None`. -/
theorem load_ros_topic_names_fields (configs : Doc) :
    (dictFind? configs "topics" = none →
      load_ros_topic_names configs =
        .ok [("image", .null), ("tf", .null), ("event", .null)]) ∧
    ∀ t, dictFind? configs "topics" = some (.dict t) →
      load_ros_topic_names configs =
        .ok [("image", (dictFind? t "image").getD .null),
             ("tf", (dictFind? t "tf").getD .null),
             ("event", (dictFind? t "event").getD .null)] := by
  constructor
  · intro h
    simp [load_ros_topic_names, h, pyDictGet, dictFind?_nil,
      Bind.bind, Except.bind, pure, Except.pure]
  · intro t h
    simp [load_ros_topic_names, h, pyDictGet,
      Bind.bind, Except.bind, pure, Except.pure]

/-- Witness for C6: the empty document yields all three fields `None`, and
a `topics` block carrying only `image` yields the other two as `None`. -/
theorem load_ros_topic_names_fields_witness :
    load_ros_topic_names [] = .ok [("image", .null), ("tf", .null), ("event", .null)] ∧
    load_ros_topic_names [("topics", .dict [("image", .str "cam0")])] =
      .ok [("image", .str "cam0"), ("tf", .null), ("event", .null)] :=
  ⟨(load_ros_topic_names_fields []).1 rfl,
   by simpa using
     (load_ros_topic_names_fields [("topics", .dict [("image", .str "cam0")])]).2
       [("image", .str "cam0")] rfl⟩

/-- C5: for a well-formed camera block, `load_camera_intrinsics` returns
the camera matrix laid out as `[[fx, 0, cx], [0, fy, cy], [0, 0, 1]]`, the
distortion vector ordered `[k1, k2, p1, p2, k3]`, and the image size pair
ordered `(height, width)`. -/
theorem load_camera_intrinsics_layout (configs : Doc)
    (cam : List (String × YamlValue)) (fx fy cx cy k1 k2 k3 p1 p2 iw ihv : YamlValue)
    (hc : dictFind? configs "camera" = some (.dict cam))
    (hfx : dictFind? cam "fx" = some fx) (hfy : dictFind? cam "fy" = some fy)
    (hcx : dictFind? cam "cx" = some cx) (hcy : dictFind? cam "cy" = some cy)
    (hk1 : dictFind? cam "k1" = some k1) (hk2 : dictFind? cam "k2" = some k2)
    (hk3 : dictFind? cam "k3" = some k3) (hp1 : dictFind? cam "p1" = some p1)
    (hp2 : dictFind? cam "p2" = some p2) (hiw : dictFind? cam "image_width" = some iw)
    (hih : dictFind? cam "image_height" = some ihv) :
    load_camera_intrinsics configs =
      .ok ([[fx, .num 0, cx], [.num 0, fy, cy], [.num 0, .num 0, .num 1]],
           [k1, k2, p1, p2, k3], (ihv, iw)) :=
  load_camera_intrinsics_ok configs cam fx fy cx cy k1 k2 k3 p1 p2 iw ihv
    hc hfx hfy hcx hcy hk1 hk2 hk3 hp1 hp2 hiw hih

/-- C2, counterexample: the length test on line 115 counts the entries of
the built dictionary, which is the number of DISTINCT requested keys, not
the number of requested keys.  Requesting `["a", "a"]` (two keys, one
distinct) returns the bare value, although the claim requires the full
mapping whenever more than one key was requested. -/
theorem c2_duplicate_keys_counterexample :
    load_parameters_from_yaml [("a", .num 5)] ["a", "a"] = .single (.num 5) ∧
    (load_parameters_from_yaml [("a", .num 5)] ["a", "a"]).isMapping = false ∧
    (["a", "a"] : List String).length = 2 :=
  ⟨rfl, rfl, rfl⟩

/-- C2 (amended): `load_parameters_from_yaml` returns the bare looked-up
value when exactly one DISTINCT key was requested, and otherwise returns
the dictionary, whose entries cover every requested key; absent keys map
to `None` (`.null`) instead of raising an error. -/
theorem load_parameters_single_vs_mapping (configs : Doc) (keys : List String) :
    (keys.toFinset.card = 1 →
      ∃ k, k ∈ keys ∧
        load_parameters_from_yaml configs keys = .single (paramValue configs k)) ∧
    (keys.toFinset.card ≠ 1 →
      load_parameters_from_yaml configs keys = .mapping (paramsDict configs keys) ∧
      ∀ k, k ∈ keys →
        dictFind? (paramsDict configs keys) k = some (paramValue configs k)) := by
  have hlen := length_paramsDict configs keys
  have hfindAll : ∀ k, k ∈ keys →
      dictFind? (paramsDict configs keys) k = some (paramValue configs k) := by
    intro k hk
    have hfind := dictFind?_paramsFold configs keys [] k
    simpa [paramsDict, hk, dictFind?_nil] using hfind
  constructor
  · intro h1
    have hl : (paramsDict configs keys).length = 1 := by rw [hlen, h1]
    rcases hps : paramsDict configs keys with _ | ⟨⟨a, b⟩, _ | ⟨q, rest⟩⟩
    · rw [hps] at hl; simp at hl
    · have hmem : a ∈ keys := by
        have hm := (mem_fst_paramsFold configs keys [] a).mp
        rw [show keys.foldl (paramStep configs) [] = paramsDict configs keys from rfl,
          hps] at hm
        simpa using hm (by simp)
      have hval : some b = some (paramValue configs a) := by
        have := hfindAll a hmem
        rw [hps, dictFind?_cons] at this
        simpa using this
      have hb : b = paramValue configs a := Option.some.inj hval
      refine ⟨a, hmem, ?_⟩
      rw [load_parameters_from_yaml, hps, hb]
    · rw [hps] at hl; simp at hl
  · intro h1
    have hl : (paramsDict configs keys).length ≠ 1 := by rw [hlen]; exact h1
    refine ⟨?_, hfindAll⟩
    rcases hps : paramsDict configs keys with _ | ⟨p, _ | ⟨q, rest⟩⟩
    · rw [load_parameters_from_yaml, hps]
    · rw [hps] at hl; simp at hl
    · rw [load_parameters_from_yaml, hps]

/-- Witness for the amended C2: requesting the two distinct keys
`["a", "b"]` from the document `{a: 5}` yields the mapping, which maps the
present key `"a"` to its value and the absent key `"b"` to `None`. -/
theorem load_parameters_single_vs_mapping_witness :
    load_parameters_from_yaml [("a", .num 5)] ["a", "b"] =
      .mapping (paramsDict [("a", .num 5)] ["a", "b"]) ∧
    dictFind? (paramsDict [("a", .num 5)] ["a", "b"]) "b" =
      some (paramValue [("a", .num 5)] "b") :=
  ⟨((load_parameters_single_vs_mapping [("a", .num 5)] ["a", "b"]).2 (by decide)).1,
   ((load_parameters_single_vs_mapping [("a", .num 5)] ["a", "b"]).2 (by decide)).2
     "b" (by decide)⟩

/-- Witness for C5 at a fully populated camera block. -/
theorem load_camera_intrinsics_layout_witness :
    load_camera_intrinsics
        [("camera", .dict
          [("fx", .num 500), ("fy", .num 501), ("cx", .num 320), ("cy", .num 240),
           ("k1", .num 11), ("k2", .num 12), ("k3", .num 13),
           ("p1", .num 21), ("p2", .num 22),
           ("image_width", .num 640), ("image_height", .num 480)])] =
      .ok ([[.num 500, .num 0, .num 320], [.num 0, .num 501, .num 240],
            [.num 0, .num 0, .num 1]],
           [.num 11, .num 12, .num 21, .num 22, .num 13],
           (.num 480, .num 640)) :=
  load_camera_intrinsics_layout _ _ _ _ _ _ _ _ _ _ _ _ _
    rfl rfl rfl rfl rfl rfl rfl rfl rfl rfl rfl rfl

/-- C7: `load_camera_intrinsics` fails with `KeyError` whenever one of the
required `camera` fields is absent (also when the `camera` block itself is
absent, in which case every field is), and reaches its return exactly when
all of them are present. -/
theorem load_camera_intrinsics_required (configs : Doc)
    (cam : List (String × YamlValue)) :
    (dictFind? configs "camera" = none →
      load_camera_intrinsics configs = .error (.keyError "camera")) ∧
    (dictFind? configs "camera" = some (.dict cam) →
      ((∃ f, f ∈ requiredCameraFields ∧ dictFind? cam f = none) →
        ∃ f, f ∈ requiredCameraFields ∧ dictFind? cam f = none ∧
          load_camera_intrinsics configs = .error (.keyError f)) ∧
      ((∀ f, f ∈ requiredCameraFields → (dictFind? cam f).isSome = true) →
        ∃ r, load_camera_intrinsics configs = .ok r)) := by
  refine ⟨fun h => ?_, fun hc => ⟨fun hex => ?_, fun hall => ?_⟩⟩
  · simp [load_camera_intrinsics, getItem, h, Bind.bind, Except.bind]
  · rcases h1 : dictFind? cam "fx" with _ | fx
    · exact ⟨"fx", by simp [requiredCameraFields], h1,
        by simp [load_camera_intrinsics, getItem, hc, h1, Bind.bind, Except.bind]⟩
    rcases h2 : dictFind? cam "fy" with _ | fy
    · exact ⟨"fy", by simp [requiredCameraFields], h2,
        by simp [load_camera_intrinsics, getItem, hc, h1, h2, Bind.bind, Except.bind]⟩
    rcases h3 : dictFind? cam "cx" with _ | cx
    · exact ⟨"cx", by simp [requiredCameraFields], h3,
        by simp [load_camera_intrinsics, getItem, hc, h1, h2, h3, Bind.bind, Except.bind]⟩
    rcases h4 : dictFind? cam "cy" with _ | cy
    · exact ⟨"cy", by simp [requiredCameraFields], h4,
        by simp [load_camera_intrinsics, getItem, hc, h1, h2, h3, h4,
          Bind.bind, Except.bind]⟩
    rcases h5 : dictFind? cam "k1" with _ | k1
    · exact ⟨"k1", by simp [requiredCameraFields], h5,
        by simp [load_camera_intrinsics, getItem, hc, h1, h2, h3, h4, h5,
          Bind.bind, Except.bind]⟩
    rcases h6 : dictFind? cam "k2" with _ | k2
    · exact ⟨"k2", by simp [requiredCameraFields], h6,
        by simp [load_camera_intrinsics, getItem, hc, h1, h2, h3, h4, h5, h6,
          Bind.bind, Except.bind]⟩
    rcases h7 : dictFind? cam "k3" with _ | k3
    · exact ⟨"k3", by simp [requiredCameraFields], h7,
        by simp [load_camera_intrinsics, getItem, hc, h1, h2, h3, h4, h5, h6, h7,
          Bind.bind, Except.bind]⟩
    rcases h8 : dictFind? cam "p1" with _ | p1
    · exact ⟨"p1", by simp [requiredCameraFields], h8,
        by simp [load_camera_intrinsics, getItem, hc, h1, h2, h3, h4, h5, h6, h7, h8,
          Bind.bind, Except.bind]⟩
    rcases h9 : dictFind? cam "p2" with _ | p2
    · exact ⟨"p2", by simp [requiredCameraFields], h9,
        by simp [load_camera_intrinsics, getItem, hc, h1, h2, h3, h4, h5, h6, h7, h8,
          h9, Bind.bind, Except.bind]⟩
    rcases h10 : dictFind? cam "image_width" with _ | iw
    · exact ⟨"image_width", by simp [requiredCameraFields], h10,
        by simp [load_camera_intrinsics, getItem, hc, h1, h2, h3, h4, h5, h6, h7, h8,
          h9, h10, Bind.bind, Except.bind]⟩
    rcases h11 : dictFind? cam "image_height" with _ | ihv
    · exact ⟨"image_height", by simp [requiredCameraFields], h11,
        by simp [load_camera_intrinsics, getItem, hc, h1, h2, h3, h4, h5, h6, h7, h8,
          h9, h10, h11, Bind.bind, Except.bind]⟩
    obtain ⟨f, hf, hnone⟩ := hex
    simp only [requiredCameraFields, List.mem_cons, List.not_mem_nil, or_false] at hf
    rcases hf with rfl | rfl | rfl | rfl | rfl | rfl | rfl | rfl | rfl | rfl | rfl <;>
      simp_all
  · have g : ∀ f, f ∈ requiredCameraFields → ∃ v, dictFind? cam f = some v := by
      intro f hf
      exact Option.isSome_iff_exists.mp (hall f hf)
    obtain ⟨fx, h1⟩ := g "fx" (by simp [requiredCameraFields])
    obtain ⟨fy, h2⟩ := g "fy" (by simp [requiredCameraFields])
    obtain ⟨cx, h3⟩ := g "cx" (by simp [requiredCameraFields])
    obtain ⟨cy, h4⟩ := g "cy" (by simp [requiredCameraFields])
    obtain ⟨k1, h5⟩ := g "k1" (by simp [requiredCameraFields])
    obtain ⟨k2, h6⟩ := g "k2" (by simp [requiredCameraFields])
    obtain ⟨k3, h7⟩ := g "k3" (by simp [requiredCameraFields])
    obtain ⟨p1, h8⟩ := g "p1" (by simp [requiredCameraFields])
    obtain ⟨p2, h9⟩ := g "p2" (by simp [requiredCameraFields])
    obtain ⟨iw, h10⟩ := g "image_width" (by simp [requiredCameraFields])
    obtain ⟨ihv, h11⟩ := g "image_height" (by simp [requiredCameraFields])
    exact ⟨_, load_camera_intrinsics_ok configs cam fx fy cx cy k1 k2 k3 p1 p2 iw ihv
      hc h1 h2 h3 h4 h5 h6 h7 h8 h9 h10 h11⟩

/-- Witness for C7: the empty document lacks the `camera` block entirely,
and a camera block carrying only `fx` is missing `fy`. -/
theorem load_camera_intrinsics_required_witness :
    load_camera_intrinsics [] = .error (.keyError "camera") ∧
    ∃ f, f ∈ requiredCameraFields ∧ dictFind? [("fx", YamlValue.num 1)] f = none ∧
      load_camera_intrinsics [("camera", .dict [("fx", .num 1)])] =
        .error (.keyError f) :=
  ⟨(load_camera_intrinsics_required [] []).1 rfl,
   ((load_camera_intrinsics_required [("camera", .dict [("fx", .num 1)])]
       [("fx", .num 1)]).2 rfl).1 ⟨"fy", by simp [requiredCameraFields], rfl⟩⟩

/-- C8: whenever `load_transformation` succeeds, the returned matrix is a
4x4 matrix whose top-left 3x3 block is the rotation matrix computed from
the entry's (swapped) quaternion, whose top-right column holds the entry's
position, and whose bottom row is `[0, 0, 0, 1]`. -/
theorem load_transformation_homogeneous (configs : Doc) (key : String)
    (m : List (List ℚ)) (h : load_transformation configs key = .ok m) :
    ∃ entry q r00 r01 r02 r10 r11 r12 r20 r21 r22 p0 p1 p2,
      dictFind? configs key = some entry ∧
      (getItem entry "Rotation" >>= asRatList >>= swapFirstLast) = Except.ok q ∧
      R_from_quat_as_matrix q =
        .ok [[r00, r01, r02], [r10, r11, r12], [r20, r21, r22]] ∧
      (getItem entry "Position" >>= asRatList >>= broadcastPosition) =
        Except.ok [p0, p1, p2] ∧
      m = [[r00, r01, r02, p0], [r10, r11, r12, p1], [r20, r21, r22, p2],
           [0, 0, 0, 1]] := by
  rcases hfind : dictFind? configs key with _ | entry
  · simp [load_transformation, hfind, throw, throwThe, MonadExceptOf.throw] at h
  rcases hP : pyContains entry "Position" with eP | bP
  · simp [load_transformation, hfind, hP, Bind.bind, Except.bind] at h
  cases bP
  · simp [load_transformation, hfind, hP, Bind.bind, Except.bind,
      throw, throwThe, MonadExceptOf.throw] at h
  rcases hR : pyContains entry "Rotation" with eR | bR
  · simp [load_transformation, hfind, hP, hR, Bind.bind, Except.bind,
      pure, Except.pure] at h
  cases bR
  · simp [load_transformation, hfind, hP, hR, Bind.bind, Except.bind,
      pure, Except.pure, throw, throwThe, MonadExceptOf.throw] at h
  rcases hgp : getItem entry "Position" with eGP | pv
  · simp [load_transformation, hfind, hP, hR, hgp, Bind.bind, Except.bind,
      pure, Except.pure] at h
  rcases hpl : asRatList pv with ePL | posL
  · simp [load_transformation, hfind, hP, hR, hgp, hpl, Bind.bind, Except.bind,
      pure, Except.pure] at h
  rcases hgr : getItem entry "Rotation" with eGR | rv
  · simp [load_transformation, hfind, hP, hR, hgp, hpl, hgr, Bind.bind,
      Except.bind, pure, Except.pure] at h
  rcases hql : asRatList rv with eQL | quatL
  · simp [load_transformation, hfind, hP, hR, hgp, hpl, hgr, hql, Bind.bind,
      Except.bind, pure, Except.pure] at h
  rcases hsw : swapFirstLast quatL with eS | q
  · simp [load_transformation, hfind, hP, hR, hgp, hpl, hgr, hql, hsw, Bind.bind,
      Except.bind, pure, Except.pure] at h
  rcases hrot : R_from_quat_as_matrix q with eM | rot
  · simp [load_transformation, hfind, hP, hR, hgp, hpl, hgr, hql, hsw, hrot,
      Bind.bind, Except.bind, pure, Except.pure] at h
  rcases hbp : broadcastPosition posL with eB | pos3
  · simp [load_transformation, hfind, hP, hR, hgp, hpl, hgr, hql, hsw, hrot, hbp,
      Bind.bind, Except.bind, pure, Except.pure] at h
  obtain ⟨r00, r01, r02, r10, r11, r12, r20, r21, r22, rfl⟩ :=
    R_from_quat_shape q rot hrot
  obtain ⟨p0, p1, p2, rfl⟩ := broadcastPosition_shape posL pos3 hbp
  have hm : m = [[r00, r01, r02, p0], [r10, r11, r12, p1], [r20, r21, r22, p2],
      [0, 0, 0, 1]] := by
    simp [load_transformation, hfind, hP, hR, hgp, hpl, hgr, hql, hsw, hrot, hbp,
      Bind.bind, Except.bind, pure, Except.pure] at h
    exact h.symm
  refine ⟨entry, q, r00, r01, r02, r10, r11, r12, r20, r21, r22, p0, p1, p2,
    rfl, ?_, hrot, ?_, hm⟩
  · simp [hgr, hql, hsw, Bind.bind, Except.bind]
  · simp [hgp, hpl, hbp, Bind.bind, Except.bind]

/-- Witness for C8 at the identity-quaternion entry of C4. -/
theorem load_transformation_homogeneous_witness :
    ∃ entry q r00 r01 r02 r10 r11 r12 r20 r21 r22 p0 p1 p2,
      dictFind?
        [("T", .dict [("Position", .arr [.num 1, .num 2, .num 3]),
                      ("Rotation", .arr [.num 1, .num 0, .num 0, .num 0])])] "T" =
        some entry ∧
      (getItem entry "Rotation" >>= asRatList >>= swapFirstLast) = Except.ok q ∧
      R_from_quat_as_matrix q =
        .ok [[r00, r01, r02], [r10, r11, r12], [r20, r21, r22]] ∧
      (getItem entry "Position" >>= asRatList >>= broadcastPosition) =
        Except.ok [p0, p1, p2] ∧
      ([[1, 0, 0, 1], [0, 1, 0, 2], [0, 0, 1, 3], [0, 0, 0, 1]] : List (List ℚ)) =
        [[r00, r01, r02, p0], [r10, r11, r12, p1], [r20, r21, r22, p2],
         [0, 0, 0, 1]] :=
  load_transformation_homogeneous _ "T" _
    (load_transformation_eq_ok _ "T" _ _ _ [1, 2, 3] [1, 0, 0, 0] [0, 0, 0, 1]
      1 0 0 0 1 0 0 0 1 1 2 3
      rfl rfl rfl rfl rfl rfl (by norm_num [R_from_quat_as_matrix]) rfl)

end YamlUtils
